import Mathlib

/-!
Verification of the slot-filling dialogue core of the MyHomi real-estate
chatbot (TypeScript sources under `src/server`).  The definitions below are a
shallow embedding of the relevant TypeScript: JavaScript truthiness of the
slot values, the `||`-based merge, the ordered missing-slot computation, the
function dispatcher, the per-turn dialogue policy of the chat route, and the
in-memory storage.  Stateful code is embedded as explicit state passing, and
the sequential effect order of a chat turn is materialised as an event trace.
-/

namespace MyHomi

/-! ## Slot model

From the function-calling schema in `src/server/functions.ts` (and the
`@shared/schema` slot schema it validates against): `action` is
`"buy" | "rent" | null`, `category` is `"residential" | "commercial" | null`,
`type` is `"flat" | "villa" | "plot" | "house" | null`, `location` is
`string | null`, and the two budget fields are `number | null`.  `Option`
models `null`/absent. -/

inductive Action where
  | buy
  | rent
deriving DecidableEq, Repr

inductive Category where
  | residential
  | commercial
deriving DecidableEq, Repr

inductive PropType where
  | flat
  | villa
  | plot
  | house
deriving DecidableEq, Repr

structure Slots where
  action : Option Action
  category : Option Category
  type : Option PropType
  location : Option String
  budget_min : Option Int
  budget_max : Option Int
deriving DecidableEq, Repr

/-! JavaScript truthiness of the slot field values, as used by `!x` and
`x || y` in `functions.ts`: an enum value (a non-empty string) is always
truthy, a string is truthy iff non-empty, a number is truthy iff non-zero,
and `null`/`undefined` is falsy. -/

/-- Truthiness of a `string | null` value: `null` and `""` are falsy. -/
def strTruthy : Option String → Bool
  | none => false
  | some s => !(s == "")

/-- Truthiness of a `number | null` value: `null` and `0` are falsy. -/
def intTruthy : Option Int → Bool
  | none => false
  | some n => !(n == 0)

/-- Truthiness of a `Nat`-valued optional (property area/bed/bath counts). -/
def natTruthy : Option Nat → Bool
  | none => false
  | some n => !(n == 0)

/-- JavaScript `incoming || existing` for an enum-valued field: every set
enum value is a non-empty string, hence truthy. -/
def jsOrEnum {α : Type} (incoming existing : Option α) : Option α :=
  match incoming with
  | some a => some a
  | none => existing

/-- JavaScript `incoming || existing` for a string field: `""` is falsy. -/
def jsOrStr (incoming existing : Option String) : Option String :=
  match incoming with
  | some s => if s = "" then existing else some s
  | none => existing

/-- JavaScript `incoming || existing` for a numeric field: `0` is falsy. -/
def jsOrInt (incoming existing : Option Int) : Option Int :=
  match incoming with
  | some n => if n = 0 then existing else some n
  | none => existing

/-- `mergeSlots` from `src/server/functions.ts`: each field is
`newSlots.field || existingSlots.field`. -/
def mergeSlots (existingSlots newSlots : Slots) : Slots :=
  { action := jsOrEnum newSlots.action existingSlots.action
    category := jsOrEnum newSlots.category existingSlots.category
    type := jsOrEnum newSlots.type existingSlots.type
    location := jsOrStr newSlots.location existingSlots.location
    budget_min := jsOrInt newSlots.budget_min existingSlots.budget_min
    budget_max := jsOrInt newSlots.budget_max existingSlots.budget_max }

/-- The label pushed for a missing `action` slot. -/
def actionLabel : String := "action (buy/rent)"

/-- The label pushed for a missing `category` slot. -/
def categoryLabel : String := "category (residential/commercial)"

/-- The label pushed for a missing `type` slot. -/
def typeLabel : String := "type (flat/villa/plot/house)"

/-- The label pushed for a missing `location` slot. -/
def locationLabel : String := "location"

/-- The label pushed for a missing budget (`!budget_min && !budget_max`). -/
def budgetLabel : String := "budget"

/-- `getMissingSlots` from `src/server/functions.ts`: the `if (!slots.f)
missing.push(...)` chain, in the fixed order action, category, type,
location, budget.  `!slots.f` is JavaScript falsiness of the field value. -/
def getMissingSlots (slots : Slots) : List String :=
  (if slots.action.isNone then [actionLabel] else []) ++
  (if slots.category.isNone then [categoryLabel] else []) ++
  (if slots.type.isNone then [typeLabel] else []) ++
  (if !(strTruthy slots.location) then [locationLabel] else []) ++
  (if !(intTruthy slots.budget_min) && !(intTruthy slots.budget_max) then [budgetLabel] else [])

/-- The fixed priority order of the missing-slot labels. -/
def slotOrder : List String :=
  [actionLabel, categoryLabel, typeLabel, locationLabel, budgetLabel]

/-! ## Helper lemmas about the conditional singleton segments. -/

/-- A conditional singleton segment is a sublist of its singleton. -/
theorem ifseg_sublist_single (b : Bool) (x : String) :
    List.Sublist (if b then [x] else []) [x] := by
  cases b <;> simp

/-- A conditional singleton segment is monotone in its condition. -/
theorem ifseg_sublist_mono (b b' : Bool) (x : String) (h : b' = true → b = true) :
    List.Sublist (if b' then [x] else []) (if b then [x] else []) := by
  cases b' <;> cases b <;> simp_all

/-- A conditional singleton segment is empty iff its condition is false. -/
theorem ifseg_eq_nil (b : Bool) (x : String) :
    (if b then [x] else []) = [] ↔ b = false := by
  cases b <;> simp

/-! ## Field-monotonicity of the merge with respect to truthiness. -/

/-- If the merged `action` is unset, the existing `action` was unset. -/
theorem merge_action_isNone (S T : Slots)
    (h : (mergeSlots S T).action.isNone = true) : S.action.isNone = true := by
  cases hT : T.action <;> simp_all [mergeSlots, jsOrEnum]

/-- If the merged `category` is unset, the existing `category` was unset. -/
theorem merge_category_isNone (S T : Slots)
    (h : (mergeSlots S T).category.isNone = true) : S.category.isNone = true := by
  cases hT : T.category <;> simp_all [mergeSlots, jsOrEnum]

/-- If the merged `type` is unset, the existing `type` was unset. -/
theorem merge_type_isNone (S T : Slots)
    (h : (mergeSlots S T).type.isNone = true) : S.type.isNone = true := by
  cases hT : T.type <;> simp_all [mergeSlots, jsOrEnum]

/-- If the merged `location` is falsy, the existing `location` was falsy. -/
theorem merge_location_falsy (S T : Slots)
    (h : strTruthy (mergeSlots S T).location = false) :
    strTruthy S.location = false := by
  cases hT : T.location with
  | none => simpa [mergeSlots, jsOrStr, hT] using h
  | some s =>
    by_cases hs : s = ""
    · simpa [mergeSlots, jsOrStr, hT, hs] using h
    · simp [mergeSlots, jsOrStr, hT, hs, strTruthy] at h

/-- If the merged `budget_min` is falsy, the existing one was falsy. -/
theorem merge_budget_min_falsy (S T : Slots)
    (h : intTruthy (mergeSlots S T).budget_min = false) :
    intTruthy S.budget_min = false := by
  cases hT : T.budget_min with
  | none => simpa [mergeSlots, jsOrInt, hT] using h
  | some n =>
    by_cases hn : n = 0
    · simpa [mergeSlots, jsOrInt, hT, hn] using h
    · simp [mergeSlots, jsOrInt, hT, hn, intTruthy] at h

/-- If the merged `budget_max` is falsy, the existing one was falsy. -/
theorem merge_budget_max_falsy (S T : Slots)
    (h : intTruthy (mergeSlots S T).budget_max = false) :
    intTruthy S.budget_max = false := by
  cases hT : T.budget_max with
  | none => simpa [mergeSlots, jsOrInt, hT] using h
  | some n =>
    by_cases hn : n = 0
    · simpa [mergeSlots, jsOrInt, hT, hn] using h
    · simp [mergeSlots, jsOrInt, hT, hn, intTruthy] at h

/-- C1 (counterexample): the claim predicts that an incoming field that is
present (non-unset) always wins, but an incoming `budget_min` of `0` is
present and nevertheless loses to the existing value `5`, because the
JavaScript `||` in `mergeSlots` treats `0` as falsy. -/
theorem mergeSlots_incoming_present_cex :
    ((⟨none, none, none, none, some 0, none⟩ : Slots).budget_min.isSome = true) ∧
    (mergeSlots ⟨none, none, none, none, some 5, none⟩
        ⟨none, none, none, none, some 0, none⟩).budget_min ≠
      (⟨none, none, none, none, some 0, none⟩ : Slots).budget_min := by
  decide

/-- C1 (amended): for every pair of `Slots` `A` (existing) and `B`
(incoming), each field of `mergeSlots A B` is `B`'s field whenever `B`'s
field is truthy (set, for the three enum fields; set and non-empty for
`location`; set and non-zero for the budget fields), and otherwise `A`'s
field. -/
theorem mergeSlots_fieldwise (A B : Slots) :
    (mergeSlots A B).action = (if B.action.isSome then B.action else A.action) ∧
    (mergeSlots A B).category = (if B.category.isSome then B.category else A.category) ∧
    (mergeSlots A B).type = (if B.type.isSome then B.type else A.type) ∧
    (mergeSlots A B).location = (if strTruthy B.location then B.location else A.location) ∧
    (mergeSlots A B).budget_min =
      (if intTruthy B.budget_min then B.budget_min else A.budget_min) ∧
    (mergeSlots A B).budget_max =
      (if intTruthy B.budget_max then B.budget_max else A.budget_max) := by
  refine ⟨?_, ?_, ?_, ?_, ?_, ?_⟩
  · cases hB : B.action <;> simp [mergeSlots, jsOrEnum, hB]
  · cases hB : B.category <;> simp [mergeSlots, jsOrEnum, hB]
  · cases hB : B.type <;> simp [mergeSlots, jsOrEnum, hB]
  · cases hB : B.location with
    | none => simp [mergeSlots, jsOrStr, hB, strTruthy]
    | some s =>
      by_cases hs : s = "" <;> simp [mergeSlots, jsOrStr, hB, hs, strTruthy]
  · cases hB : B.budget_min with
    | none => simp [mergeSlots, jsOrInt, hB, intTruthy]
    | some n =>
      by_cases hn : n = 0 <;> simp [mergeSlots, jsOrInt, hB, hn, intTruthy]
  · cases hB : B.budget_max with
    | none => simp [mergeSlots, jsOrInt, hB, intTruthy]
    | some n =>
      by_cases hn : n = 0 <;> simp [mergeSlots, jsOrInt, hB, hn, intTruthy]

/-- C2 (counterexample): with every field set — in particular
`budget_min = 0`, which the claim counts as present — the missing-field
list is nevertheless non-empty, because `!slots.budget_min` is true for
the number `0` in JavaScript. -/
theorem getMissingSlots_budget_zero_cex :
    ((⟨some Action.buy, some Category.residential, some PropType.flat,
        some "Pune", some 0, none⟩ : Slots).action.isSome = true) ∧
    ((⟨some Action.buy, some Category.residential, some PropType.flat,
        some "Pune", some 0, none⟩ : Slots).budget_min.isSome = true) ∧
    getMissingSlots ⟨some Action.buy, some Category.residential,
        some PropType.flat, some "Pune", some 0, none⟩ ≠ [] := by
  decide

/-- C2 (amended): the missing-field list is empty iff `action`, `category`
and `type` are set, `location` is set to a non-empty string, and at least
one of `budget_min`/`budget_max` is set to a non-zero value. -/
theorem getMissingSlots_empty_iff (s : Slots) :
    getMissingSlots s = [] ↔
      (s.action.isSome = true ∧ s.category.isSome = true ∧ s.type.isSome = true ∧
       strTruthy s.location = true ∧
       (intTruthy s.budget_min = true ∨ intTruthy s.budget_max = true)) := by
  have ha : s.action.isSome = !s.action.isNone := by cases s.action <;> rfl
  have hc : s.category.isSome = !s.category.isNone := by cases s.category <;> rfl
  have ht : s.type.isSome = !s.type.isNone := by cases s.type <;> rfl
  rw [getMissingSlots, ha, hc, ht]
  generalize s.action.isNone = a
  generalize s.category.isNone = b
  generalize s.type.isNone = c
  generalize strTruthy s.location = d
  generalize intTruthy s.budget_min = e
  generalize intTruthy s.budget_max = f
  cases a <;> cases b <;> cases c <;> cases d <;> cases e <;> cases f <;>
    simp [actionLabel, categoryLabel, typeLabel, locationLabel, budgetLabel]

/-- C3: the missing-field list is always a sublist (hence a duplicate-free
subsequence) of the fixed priority order
`[action, category, type, location, budget]`. -/
theorem getMissingSlots_ordered (s : Slots) :
    List.Sublist (getMissingSlots s) slotOrder ∧ (getMissingSlots s).Nodup := by
  have h : List.Sublist (getMissingSlots s) slotOrder := by
    have h5 := List.Sublist.append (List.Sublist.append (List.Sublist.append
      (List.Sublist.append (ifseg_sublist_single s.action.isNone actionLabel)
        (ifseg_sublist_single s.category.isNone categoryLabel))
      (ifseg_sublist_single s.type.isNone typeLabel))
      (ifseg_sublist_single (!(strTruthy s.location)) locationLabel))
      (ifseg_sublist_single
        (!(intTruthy s.budget_min) && !(intTruthy s.budget_max)) budgetLabel)
    simpa [getMissingSlots, slotOrder] using h5
  have hnd : slotOrder.Nodup := by decide
  exact ⟨h, hnd.sublist h⟩

/-- C10: merging newly extracted slots into a session's slots can only
shrink the missing-field list — the missing list of the merge is a
sublist of the missing list of the existing slots. -/
theorem getMissingSlots_merge_sublist (S T : Slots) :
    List.Sublist (getMissingSlots (mergeSlots S T)) (getMissingSlots S) := by
  unfold getMissingSlots
  refine List.Sublist.append (List.Sublist.append (List.Sublist.append
    (List.Sublist.append (ifseg_sublist_mono _ _ _ ?_) (ifseg_sublist_mono _ _ _ ?_))
    (ifseg_sublist_mono _ _ _ ?_)) (ifseg_sublist_mono _ _ _ ?_))
    (ifseg_sublist_mono _ _ _ ?_)
  · exact merge_action_isNone S T
  · exact merge_category_isNone S T
  · exact merge_type_isNone S T
  · intro h
    have h' : strTruthy (mergeSlots S T).location = false := by
      cases hx : strTruthy (mergeSlots S T).location <;> simp_all
    have := merge_location_falsy S T h'
    simp [this]
  · intro h
    have hmin : intTruthy (mergeSlots S T).budget_min = false := by
      cases hx : intTruthy (mergeSlots S T).budget_min <;> simp_all
    have hmax : intTruthy (mergeSlots S T).budget_max = false := by
      cases hx : intTruthy (mergeSlots S T).budget_max <;> simp_all
    simp [merge_budget_min_falsy S T hmin, merge_budget_max_falsy S T hmax]

/-! ## Intent and ingress validation

`extractIntentAndSlots` validates against `intentSchema` and `slotSchema`
from `@shared/schema`; that module is not under `src/`, so the two schemas
are modelled from the spec's Slot Model (§3) and intent set (§4.3). -/

inductive Intent where
  | property_query
  | general_info
  | fallback
deriving DecidableEq, Repr

/-- Modelled from the spec: `intentSchema` (from `@shared/schema`, not under
`src/`) — the extracted intent must lie in the closed set
{property_query, general_info, fallback}. -/
def parseIntent : String → Option Intent
  | "property_query" => some Intent.property_query
  | "general_info" => some Intent.general_info
  | "fallback" => some Intent.fallback
  | _ => none

/-- A slot object as it arrives from the model (post JSON parse), before
schema validation. -/
structure RawSlots where
  action : Option String
  category : Option String
  type : Option String
  location : Option String
  budget_min : Option Int
  budget_max : Option Int
deriving DecidableEq, Repr

/-- Validation of the raw `action` field against its enum. -/
def parseActionField : Option String → Option (Option Action)
  | none => some none
  | some "buy" => some (some Action.buy)
  | some "rent" => some (some Action.rent)
  | some _ => none

/-- Validation of the raw `category` field against its enum. -/
def parseCategoryField : Option String → Option (Option Category)
  | none => some none
  | some "residential" => some (some Category.residential)
  | some "commercial" => some (some Category.commercial)
  | some _ => none

/-- Validation of the raw `type` field against its enum. -/
def parseTypeField : Option String → Option (Option PropType)
  | none => some none
  | some "flat" => some (some PropType.flat)
  | some "villa" => some (some PropType.villa)
  | some "plot" => some (some PropType.plot)
  | some "house" => some (some PropType.house)
  | some _ => none

/-- Modelled from the spec: `slotSchema` (from `@shared/schema`, not under
`src/`) — the three enum fields must be legal enum strings or null,
`location` is a free string or null, the budgets are numbers or null. -/
def parseSlots (r : RawSlots) : Option Slots :=
  match parseActionField r.action, parseCategoryField r.category,
      parseTypeField r.type with
  | some a, some c, some t =>
      some { action := a, category := c, type := t, location := r.location,
             budget_min := r.budget_min, budget_max := r.budget_max }
  | _, _, _ => none

/-- The wire string of an `Action` value. -/
def actionToString : Action → String
  | Action.buy => "buy"
  | Action.rent => "rent"

/-- The wire string of a `Category` value. -/
def categoryToString : Category → String
  | Category.residential => "residential"
  | Category.commercial => "commercial"

/-- The wire string of a `PropType` value. -/
def typeToString : PropType → String
  | PropType.flat => "flat"
  | PropType.villa => "villa"
  | PropType.plot => "plot"
  | PropType.house => "house"

/-- The raw (JSON-level) image of a validated `Slots` value, as passed back
into `save_memory` and `fetch_properties` by the chat route. -/
def toRawSlots (s : Slots) : RawSlots :=
  { action := s.action.map actionToString
    category := s.category.map categoryToString
    type := s.type.map typeToString
    location := s.location
    budget_min := s.budget_min
    budget_max := s.budget_max }

/-- Re-validating an already validated slot object succeeds and is the
identity (the zod parse in `save_memory`/`fetch_properties` cannot fail on
the merged slots the route passes to them). -/
theorem parseSlots_toRawSlots (s : Slots) : parseSlots (toRawSlots s) = some s := by
  obtain ⟨a, c, t, l, bmin, bmax⟩ := s
  rcases a with _ | a <;> rcases c with _ | c <;> rcases t with _ | t <;>
    (try cases a) <;> (try cases c) <;> (try cases t) <;> rfl

/-! ## Session store

The storage methods `getUserSession` / `updateUserSession` /
`createUserSession` and `searchProperties` are declared on the storage
object but their implementations are not under `src/`; the store is
modelled from the spec (§6): `get(sessionId) -> Session?`,
`put(sessionId, slots, language) -> Session`.  Property search stays an
external collaborator and enters as a function parameter. -/

/-- A per-conversation session: merged slots plus a language code. -/
structure Session where
  sessionId : String
  slots : Slots
  language : String
deriving DecidableEq, Repr

/-- The session store state: the persisted sessions. -/
abbrev SessionStore := List Session

/-- Modelled from the spec: Session Store `get(sessionId) -> Session?`. -/
def getUserSession (st : SessionStore) (sid : String) : Option Session :=
  st.find? (fun sess => sess.sessionId == sid)

/-- Modelled from the spec: Session Store `put` on an existing session —
updated in place, never field-deleted; an absent language keeps the stored
one. -/
def updateUserSession (st : SessionStore) (sid : String) (sl : Slots)
    (lang : Option String) : SessionStore :=
  st.map (fun sess =>
    if sess.sessionId == sid
    then { sess with slots := sl, language := lang.getD sess.language }
    else sess)

/-- Modelled from the spec: Session Store `put` creating a fresh session. -/
def createUserSession (st : SessionStore) (sess : Session) : SessionStore :=
  sess :: st

/-- A property listing, with the fields the chat route reads when it
formats a search result (`src/server/routes.ts`). -/
structure Property where
  title : String
  location : String
  city : String
  price : Nat
  area : Option Nat
  bedrooms : Option Nat
  bathrooms : Option Nat
  contactPhone : Option String
deriving DecidableEq, Repr

/-! ## Function dispatcher (`src/server/functions.ts`) -/

/-- The JSON argument shapes of the four callable functions. -/
inductive FnArgs where
  | extractArgs (intent : String) (slots : RawSlots)
  | fetchArgs (slots : RawSlots)
  | searchArgs (query : String)
  | saveArgs (session_id : String) (slots : RawSlots) (language : Option String)
deriving DecidableEq, Repr

/-- The uniform `{success, ...payload | error}` envelope returned by every
handler and by the dispatcher: a `success: true` result carries its payload,
a `success: false` result carries the error string.  Every handler is a
total function into this type — the `try/catch` in each handler means no
exception escapes. -/
inductive FnResult where
  | extractOk (intent : Intent) (slots : Slots)
  | fetchOk (properties : List Property) (count : Nat)
  | searchOk (message : String)
  | saveOk (sessionId : String) (slots : Slots) (language : String)
  | failure (error : String)
deriving DecidableEq, Repr

/-- The `success` discriminant of the envelope. -/
def FnResult.success : FnResult → Bool
  | FnResult.failure _ => false
  | _ => true

/-- `extractIntentAndSlots` from `src/server/functions.ts`: validate the
intent and the slots; any validation failure is caught and returned as the
failure envelope. -/
def extractIntentAndSlots (args : FnArgs) : FnResult :=
  match args with
  | FnArgs.extractArgs intent slots =>
    match parseIntent intent, parseSlots slots with
    | some i, some s => FnResult.extractOk i s
    | _, _ => FnResult.failure "Failed to extract intent and slots"
  | _ => FnResult.failure "Failed to extract intent and slots"

/-- `fetchProperties` from `src/server/functions.ts`: validate the slots,
then query the property store (`storage.searchProperties`, the external
search collaborator passed in as `search`). -/
def fetchProperties (search : Slots → List Property) (args : FnArgs) : FnResult :=
  match args with
  | FnArgs.fetchArgs slots =>
    match parseSlots slots with
    | some s => FnResult.fetchOk (search s) (search s).length
    | none => FnResult.failure "Failed to fetch properties"
  | _ => FnResult.failure "Failed to fetch properties"

/-- `searchWeb` from `src/server/functions.ts`: the stub. -/
def searchWeb (args : FnArgs) : FnResult :=
  match args with
  | FnArgs.searchArgs q =>
    FnResult.searchOk ("Web search would be performed for: \"" ++ q ++ "\"")
  | _ => FnResult.failure "Failed to search web"

/-- `saveMemory` from `src/server/functions.ts`: validate the slots, then
update the existing session or create a new one (`language || "en"` on
creation). -/
def saveMemory (args : FnArgs) (st : SessionStore) : FnResult × SessionStore :=
  match args with
  | FnArgs.saveArgs sid slots lang =>
    match parseSlots slots with
    | some s =>
      match getUserSession st sid with
      | some sess =>
        let sess' := { sess with slots := s, language := lang.getD sess.language }
        (FnResult.saveOk sess'.sessionId sess'.slots sess'.language,
         updateUserSession st sid s lang)
      | none =>
        let sess' : Session :=
          { sessionId := sid, slots := s,
            language := match lang with
              | some l => if l = "" then "en" else l
              | none => "en" }
        (FnResult.saveOk sess'.sessionId sess'.slots sess'.language,
         createUserSession st sess')
    | none => (FnResult.failure "Failed to save memory", st)
  | _ => (FnResult.failure "Failed to save memory", st)

/-- `executeFunction` from `src/server/functions.ts`: the switch over the
four known function names, with the unknown-name default case. -/
def executeFunction (search : Slots → List Property) (functionName : String)
    (args : FnArgs) (st : SessionStore) : FnResult × SessionStore :=
  if functionName = "extract_intent_and_slots" then (extractIntentAndSlots args, st)
  else if functionName = "fetch_properties" then (fetchProperties search args, st)
  else if functionName = "search_web" then (searchWeb args, st)
  else if functionName = "save_memory" then saveMemory args st
  else (FnResult.failure ("Unknown function: " ++ functionName), st)

/-- C5: dispatching any name outside the closed set of four returns the
tagged failure envelope `Unknown function: <name>` with the store untouched
(and, the dispatcher being a total function into the envelope type, it never
throws); each of the four known names routes to its handler, whose result is
itself the uniform envelope. -/
theorem executeFunction_dispatch (search : Slots → List Property)
    (functionName : String) (args : FnArgs) (st : SessionStore)
    (h : functionName ∉ ["extract_intent_and_slots", "fetch_properties",
      "search_web", "save_memory"]) :
    executeFunction search functionName args st =
      (FnResult.failure ("Unknown function: " ++ functionName), st) ∧
    executeFunction search "extract_intent_and_slots" args st =
      (extractIntentAndSlots args, st) ∧
    executeFunction search "fetch_properties" args st =
      (fetchProperties search args, st) ∧
    executeFunction search "search_web" args st = (searchWeb args, st) ∧
    executeFunction search "save_memory" args st = saveMemory args st := by
  simp only [List.mem_cons, List.not_mem_nil, or_false] at h
  push_neg at h
  obtain ⟨h1, h2, h3, h4⟩ := h
  refine ⟨?_, ?_, ?_, ?_, ?_⟩ <;> simp [executeFunction, h1, h2, h3, h4]

/-- C5 witness: the unknown name `frobnicate` at a concrete argument and
store, together with the routing of the four known names there. -/
theorem executeFunction_dispatch_witness :
    (("frobnicate" : String) ∉ ["extract_intent_and_slots", "fetch_properties",
      "search_web", "save_memory"]) ∧
    (executeFunction (fun _ => []) "frobnicate" (FnArgs.searchArgs "q") [] =
      (FnResult.failure ("Unknown function: " ++ "frobnicate"), ([] : SessionStore)) ∧
    executeFunction (fun _ => []) "extract_intent_and_slots" (FnArgs.searchArgs "q") [] =
      (extractIntentAndSlots (FnArgs.searchArgs "q"), ([] : SessionStore)) ∧
    executeFunction (fun _ => []) "fetch_properties" (FnArgs.searchArgs "q") [] =
      (fetchProperties (fun _ => []) (FnArgs.searchArgs "q"), ([] : SessionStore)) ∧
    executeFunction (fun _ => []) "search_web" (FnArgs.searchArgs "q") [] =
      (searchWeb (FnArgs.searchArgs "q"), ([] : SessionStore)) ∧
    executeFunction (fun _ => []) "save_memory" (FnArgs.searchArgs "q") [] =
      saveMemory (FnArgs.searchArgs "q") []) :=
  ⟨by decide, executeFunction_dispatch (fun _ => []) "frobnicate"
    (FnArgs.searchArgs "q") [] (by decide)⟩

/-! ## The chat route's per-turn dialogue policy (`src/server/routes.ts`)

The `extract_intent_and_slots` branch of the RAG chat endpoint: merge into
the session slots, persist via `save_memory`, then either ask for the first
missing slot or fetch and render properties.  The sequential effect order of
one turn is materialised as a list of events (persist, property search,
streamed chunk). -/

/-- `Number(price).toLocaleString("en-IN")` digit grouping on the reversed
digit list: a comma before reversed positions 3, 5, 7, …. -/
def commaRev : List Char → Nat → List Char
  | [], _ => []
  | c :: cs, i =>
    if 3 ≤ i ∧ (i - 3) % 2 = 0 then ',' :: c :: commaRev cs (i + 1)
    else c :: commaRev cs (i + 1)

/-- `Number(price).toLocaleString("en-IN")`: Indian digit grouping — the
last three digits, then groups of two. -/
def toLocaleStringEnIN (n : Nat) : String :=
  String.mk ((commaRev (toString n).data.reverse 0).reverse)

/-- The streaming loop slices the response into chunks of ten characters. -/
def chunkAux : List Char → List String
  | [] => []
  | c :: rest => String.mk (c :: rest.take 9) :: chunkAux (rest.drop 9)
termination_by cs => cs.length
decreasing_by simp [List.length_drop]; omega

/-- `finalResponse.slice(i, i + 10)` for `i = 0, 10, 20, …`. -/
def chunksOf10 (s : String) : List String := chunkAux s.data

/-- The fixed-template follow-up question naming the first missing slot. -/
def questionFor (nextSlot : String) : String :=
  "I\x27d be happy to help you find the perfect property! I need a bit more information. Could you please tell me about the " ++ nextSlot ++ "?"

/-- The clarification message of the extraction-failure path. -/
def clarifyMsg : String :=
  "I had trouble understanding your request. Could you please rephrase what kind of property you\x27re looking for?"

/-- The no-match message of the empty-search-result path. -/
def noMatchesMsg : String :=
  "I\x27m sorry, I couldn\x27t find any properties matching your exact criteria. Would you like me to search with different parameters or search online for more options?"

/-- One property's formatted summary block: title, location and price
unconditionally; area, bedrooms, bathrooms and contact phone behind
truthiness guards. -/
def renderProperty (index : Nat) (p : Property) : String :=
  "**" ++ toString (index + 1) ++ ". " ++ p.title ++ "**\n" ++
  "📍 " ++ p.location ++ ", " ++ p.city ++ "\n" ++
  "💰 ₹" ++ toLocaleStringEnIN p.price ++ "\n" ++
  (if natTruthy p.area then "📐 " ++ toString (p.area.getD 0) ++ " sq ft\n" else "") ++
  (if natTruthy p.bedrooms then "🛏️ " ++ toString (p.bedrooms.getD 0) ++ " bed" else "") ++
  (if natTruthy p.bathrooms then ", " ++ toString (p.bathrooms.getD 0) ++ " bath\n" else "") ++
  (if strTruthy p.contactPhone then "📞 " ++ p.contactPhone.getD "" ++ "\n" else "") ++
  "\n"

/-- The formatted result list: the count header followed by one summary
block per property, in order. -/
def renderResults (props : List Property) : String :=
  "Great! I found " ++ toString props.length ++
  " properties matching your criteria:\n\n" ++
  String.join (props.enum.map (fun ip => renderProperty ip.1 ip.2))

/-- The observable side effects of one turn, in their sequential order. -/
inductive Event where
  | persist (slots : Slots)
  | searchRun (slots : Slots)
  | chunk (text : String)
deriving DecidableEq, Repr

/-- Which branch of the policy produced the turn's reply. -/
inductive TurnAction where
  | ask (field : String)
  | results (props : List Property)
  | noMatches
  | clarification
deriving DecidableEq, Repr

/-- The outcome of one chat turn: the branch taken, the reply text, the
session store afterwards, and the effect trace. -/
structure TurnOutput where
  action : TurnAction
  response : String
  store : SessionStore
  events : List Event
deriving Repr

/-- The merge of the turn's extracted slots into the session's stored slots
(`session && session.slots ? mergeSlots(session.slots, slots) : slots`). -/
def mergedOf (store : SessionStore) (sid : String) (extracted : Slots) : Slots :=
  match getUserSession store sid with
  | some sess => mergeSlots sess.slots extracted
  | none => extracted

/-- The `extract_intent_and_slots` branch of the chat route
(`src/server/routes.ts`): on success, merge, persist via `save_memory`,
then ask for `missingSlots[0]` or fetch and render properties; on failure,
reply with the clarification request and touch nothing. -/
def handleExtractTurn (search : Slots → List Property) (store : SessionStore)
    (sessionId lang : String) (extractResult : FnResult) : TurnOutput :=
  match extractResult with
  | FnResult.extractOk _ slots =>
    let merged := mergedOf store sessionId slots
    let saved := executeFunction search "save_memory"
      (FnArgs.saveArgs sessionId (toRawSlots merged) (some lang)) store
    match getMissingSlots merged with
    | nextSlot :: _ =>
      let resp := questionFor nextSlot
      { action := TurnAction.ask nextSlot, response := resp, store := saved.2,
        events := Event.persist merged :: (chunksOf10 resp).map Event.chunk }
    | [] =>
      let fetched := executeFunction search "fetch_properties"
        (FnArgs.fetchArgs (toRawSlots merged)) saved.2
      match fetched.1 with
      | FnResult.fetchOk props _ =>
        if props.length > 0 then
          let resp := renderResults props
          { action := TurnAction.results props, response := resp, store := fetched.2,
            events := Event.persist merged :: Event.searchRun merged ::
              (chunksOf10 resp).map Event.chunk }
        else
          { action := TurnAction.noMatches, response := noMatchesMsg, store := fetched.2,
            events := Event.persist merged :: Event.searchRun merged ::
              (chunksOf10 noMatchesMsg).map Event.chunk }
      | _ =>
        { action := TurnAction.noMatches, response := noMatchesMsg, store := fetched.2,
          events := Event.persist merged :: Event.searchRun merged ::
            (chunksOf10 noMatchesMsg).map Event.chunk }
  | _ =>
    { action := TurnAction.clarification, response := clarifyMsg, store := store,
      events := (chunksOf10 clarifyMsg).map Event.chunk }

/-! ## Dispatcher routing lemmas used by the turn proofs. -/

/-- Dispatching `save_memory` is the `saveMemory` handler. -/
theorem executeFunction_save_eq (search : Slots → List Property) (args : FnArgs)
    (st : SessionStore) : executeFunction search "save_memory" args st = saveMemory args st := by
  unfold executeFunction
  rw [if_neg (by decide), if_neg (by decide), if_neg (by decide), if_pos rfl]

/-- Dispatching `fetch_properties` is the `fetchProperties` handler, with
the store untouched. -/
theorem executeFunction_fetch_eq (search : Slots → List Property) (args : FnArgs)
    (st : SessionStore) :
    executeFunction search "fetch_properties" args st = (fetchProperties search args, st) := by
  unfold executeFunction
  rw [if_neg (by decide), if_pos rfl]

/-- Looking a session up after `updateUserSession` yields the updated
session. -/
theorem getUserSession_update (st : SessionStore) (sid : String) (sl : Slots)
    (lang : Option String) :
    getUserSession (updateUserSession st sid sl lang) sid =
      (getUserSession st sid).map
        (fun sess => { sess with slots := sl, language := lang.getD sess.language }) := by
  induction st with
  | nil => rfl
  | cons sess rest ih =>
    simp only [updateUserSession, List.map_cons]
    by_cases h : sess.sessionId = sid
    · rw [getUserSession, List.find?_cons_of_pos _ (by simp [h]),
        getUserSession, List.find?_cons_of_pos _ (by simp [h])]
      simp [h]
    · rw [getUserSession, List.find?_cons_of_neg _ (by simp [h]),
        getUserSession, List.find?_cons_of_neg _ (by simp [h])]
      simpa [updateUserSession, getUserSession] using ih

/-- After the route's `save_memory` call, the session holds exactly the
merged slots. -/
theorem saveMemory_persists (st : SessionStore) (sid : String) (s : Slots)
    (lang : String) :
    (getUserSession (saveMemory (FnArgs.saveArgs sid (toRawSlots s) (some lang)) st).2
        sid).map (fun sess => sess.slots) = some s := by
  simp only [saveMemory, parseSlots_toRawSlots]
  cases hses : getUserSession st sid with
  | some sess => simp [getUserSession_update, hses]
  | none => simp [createUserSession, getUserSession, List.find?_cons]

/-- A string with a non-empty left part is non-empty. -/
theorem append_ne_empty_left (s t : String) (h : s ≠ "") : s ++ t ≠ "" := by
  intro he
  apply h
  have hd := congrArg String.data he
  rw [String.data_append] at hd
  obtain ⟨h1, _⟩ := List.append_eq_nil.mp hd
  exact String.ext (by simp [h1])

/-- C4: whenever extraction succeeds and the merged slots have a non-empty
missing-field list, the turn's reply is the fixed-template question naming
exactly the missing field at index 0 (a field that is genuinely missing —
it is a member of the missing list), the branch taken is `ask` with that
single field, no property search runs (there is no search event, and the
whole turn output is independent of the search collaborator). -/
theorem policy_asks_first_missing
    (search : Slots → List Property) (store : SessionStore)
    (sessionId lang : String) (i : Intent) (slots : Slots)
    (extractResult : FnResult) (f : String) (rest : List String)
    (hres : extractResult = FnResult.extractOk i slots)
    (hmiss : getMissingSlots (mergedOf store sessionId slots) = f :: rest) :
    (handleExtractTurn search store sessionId lang extractResult).action =
      TurnAction.ask f ∧
    (handleExtractTurn search store sessionId lang extractResult).response =
      questionFor f ∧
    f ∈ getMissingSlots (mergedOf store sessionId slots) ∧
    (∀ sl, Event.searchRun sl ∉
      (handleExtractTurn search store sessionId lang extractResult).events) ∧
    (∀ search' : Slots → List Property,
      handleExtractTurn search' store sessionId lang extractResult =
        handleExtractTurn search store sessionId lang extractResult) := by
  subst hres
  refine ⟨?_, ?_, ?_, ?_, ?_⟩
  · simp [handleExtractTurn, hmiss]
  · simp [handleExtractTurn, hmiss]
  · rw [hmiss]
    exact List.mem_cons_self f rest
  · intro sl
    simp [handleExtractTurn, hmiss, List.mem_map]
  · intro search'
    simp [handleExtractTurn, hmiss, executeFunction_save_eq]

/-- C4 witness: with no stored session and extracted slots
`{action: unset, category: residential, type: flat, location: "Pune",
budget_min: 5000000}`, the missing list is exactly the action entry and the
turn asks the action question. -/
theorem policy_asks_first_missing_witness :
    getMissingSlots (mergedOf [] "s1"
      ⟨none, some Category.residential, some PropType.flat, some "Pune",
        some 5000000, none⟩) = [actionLabel] ∧
    (handleExtractTurn (fun _ => []) [] "s1" "en"
      (FnResult.extractOk Intent.property_query
        ⟨none, some Category.residential, some PropType.flat, some "Pune",
          some 5000000, none⟩)).action = TurnAction.ask actionLabel ∧
    (handleExtractTurn (fun _ => []) [] "s1" "en"
      (FnResult.extractOk Intent.property_query
        ⟨none, some Category.residential, some PropType.flat, some "Pune",
          some 5000000, none⟩)).response = questionFor actionLabel ∧
    actionLabel ∈ getMissingSlots (mergedOf [] "s1"
      ⟨none, some Category.residential, some PropType.flat, some "Pune",
        some 5000000, none⟩) := by
  have hm : getMissingSlots (mergedOf [] "s1"
      ⟨none, some Category.residential, some PropType.flat, some "Pune",
        some 5000000, none⟩) = [actionLabel] := by decide
  have h := policy_asks_first_missing (fun _ => []) [] "s1" "en"
    Intent.property_query
    ⟨none, some Category.residential, some PropType.flat, some "Pune",
      some 5000000, none⟩ _ actionLabel [] rfl hm
  exact ⟨hm, h.1, h.2.1, h.2.2.1⟩

/-- C6: whenever extraction succeeds, the merged slots are complete, and
the property search returns no properties, the turn replies with the
no-match message and does not ask a slot question; when the search returns
a non-empty list the reply is the rendered result list, and each rendered
summary block contains title, location and price unconditionally with the
area / bedrooms / bathrooms / contact segments non-empty exactly when the
corresponding field is truthy (so an included segment implies the field is
set). -/
theorem policy_complete_slots
    (search : Slots → List Property) (store : SessionStore)
    (sessionId lang : String) (i : Intent) (slots : Slots)
    (extractResult : FnResult)
    (hres : extractResult = FnResult.extractOk i slots)
    (hm : getMissingSlots (mergedOf store sessionId slots) = []) :
    (search (mergedOf store sessionId slots) = [] →
      (handleExtractTurn search store sessionId lang extractResult).action =
        TurnAction.noMatches ∧
      (handleExtractTurn search store sessionId lang extractResult).response =
        noMatchesMsg ∧
      ∀ fld, (handleExtractTurn search store sessionId lang extractResult).action ≠
        TurnAction.ask fld) ∧
    (search (mergedOf store sessionId slots) ≠ [] →
      (handleExtractTurn search store sessionId lang extractResult).action =
        TurnAction.results (search (mergedOf store sessionId slots)) ∧
      (handleExtractTurn search store sessionId lang extractResult).response =
        renderResults (search (mergedOf store sessionId slots))) ∧
    (∀ idx : Nat, ∀ p : Property,
      ∃ areaSeg bedSeg bathSeg contactSeg : String,
        renderProperty idx p =
          "**" ++ toString (idx + 1) ++ ". " ++ p.title ++ "**\n" ++
          "📍 " ++ p.location ++ ", " ++ p.city ++ "\n" ++
          "💰 ₹" ++ toLocaleStringEnIN p.price ++ "\n" ++
          areaSeg ++ bedSeg ++ bathSeg ++ contactSeg ++ "\n" ∧
        (areaSeg ≠ "" ↔ natTruthy p.area = true) ∧
        (bedSeg ≠ "" ↔ natTruthy p.bedrooms = true) ∧
        (bathSeg ≠ "" ↔ natTruthy p.bathrooms = true) ∧
        (contactSeg ≠ "" ↔ strTruthy p.contactPhone = true)) := by
  subst hres
  refine ⟨?_, ?_, ?_⟩
  · intro hs
    simp only [handleExtractTurn, hm, executeFunction_fetch_eq, fetchProperties,
      parseSlots_toRawSlots, hs]
    refine ⟨by simp, by simp, ?_⟩
    intro fld
    simp
  · intro hs
    have hl : 0 < (search (mergedOf store sessionId slots)).length :=
      List.length_pos.mpr hs
    simp only [handleExtractTurn, hm, executeFunction_fetch_eq, fetchProperties,
      parseSlots_toRawSlots]
    simp [hl]
  · intro idx p
    refine ⟨if natTruthy p.area then "📐 " ++ toString (p.area.getD 0) ++ " sq ft\n" else "",
      if natTruthy p.bedrooms then "🛏️ " ++ toString (p.bedrooms.getD 0) ++ " bed" else "",
      if natTruthy p.bathrooms then ", " ++ toString (p.bathrooms.getD 0) ++ " bath\n" else "",
      if strTruthy p.contactPhone then "📞 " ++ p.contactPhone.getD "" ++ "\n" else "",
      rfl, ?_, ?_, ?_, ?_⟩
    · by_cases h : natTruthy p.area
      · simp only [if_pos h, h, iff_true]
        exact append_ne_empty_left _ _ (append_ne_empty_left _ _ (by decide))
      · simp [h]
    · by_cases h : natTruthy p.bedrooms
      · simp only [if_pos h, h, iff_true]
        exact append_ne_empty_left _ _ (append_ne_empty_left _ _ (by decide))
      · simp [h]
    · by_cases h : natTruthy p.bathrooms
      · simp only [if_pos h, h, iff_true]
        exact append_ne_empty_left _ _ (append_ne_empty_left _ _ (by decide))
      · simp [h]
    · by_cases h : strTruthy p.contactPhone
      · simp only [if_pos h, h, iff_true]
        exact append_ne_empty_left _ _ (append_ne_empty_left _ _ (by decide))
      · simp [h]

/-- C6 witness: complete slots, a search collaborator returning zero
properties — the turn emits the no-match message, not a question. -/
theorem policy_complete_slots_witness :
    getMissingSlots (mergedOf [] "s1"
      ⟨some Action.buy, some Category.residential, some PropType.flat,
        some "Pune", some 5000000, none⟩) = [] ∧
    (handleExtractTurn (fun _ => []) [] "s1" "en"
      (FnResult.extractOk Intent.property_query
        ⟨some Action.buy, some Category.residential, some PropType.flat,
          some "Pune", some 5000000, none⟩)).action = TurnAction.noMatches ∧
    (handleExtractTurn (fun _ => []) [] "s1" "en"
      (FnResult.extractOk Intent.property_query
        ⟨some Action.buy, some Category.residential, some PropType.flat,
          some "Pune", some 5000000, none⟩)).response = noMatchesMsg := by
  have hm : getMissingSlots (mergedOf [] "s1"
      ⟨some Action.buy, some Category.residential, some PropType.flat,
        some "Pune", some 5000000, none⟩) = [] := by decide
  have h := policy_complete_slots (fun _ => []) [] "s1" "en"
    Intent.property_query
    ⟨some Action.buy, some Category.residential, some PropType.flat,
      some "Pune", some 5000000, none⟩ _ rfl hm
  have h1 := h.1 rfl
  exact ⟨hm, h1.1, h1.2.1⟩

/-- C7: whenever extraction fails validation, the turn replies with the
clarification request, takes the terminal clarification branch, leaves the
session store exactly as it was (no persist event occurs), and a raw
extraction whose intent or slots fail schema validation indeed produces the
failure envelope. -/
theorem policy_extraction_failure_scoped
    (search : Slots → List Property) (store : SessionStore)
    (sessionId lang e : String) (extractResult : FnResult)
    (hres : extractResult = FnResult.failure e) :
    (handleExtractTurn search store sessionId lang extractResult).action =
      TurnAction.clarification ∧
    (handleExtractTurn search store sessionId lang extractResult).response =
      clarifyMsg ∧
    (handleExtractTurn search store sessionId lang extractResult).store = store ∧
    (∀ sl, Event.persist sl ∉
      (handleExtractTurn search store sessionId lang extractResult).events) ∧
    (∀ intentStr : String, ∀ raw : RawSlots,
      (parseIntent intentStr = none ∨ parseSlots raw = none) →
      extractIntentAndSlots (FnArgs.extractArgs intentStr raw) =
        FnResult.failure "Failed to extract intent and slots") := by
  subst hres
  refine ⟨rfl, rfl, rfl, ?_, ?_⟩
  · intro sl
    simp [handleExtractTurn, List.mem_map]
  · intro intentStr raw hor
    rcases hor with hI | hS
    · cases hps : parseSlots raw <;> simp [extractIntentAndSlots, hI, hps]
    · cases hpi : parseIntent intentStr <;> simp [extractIntentAndSlots, hS, hpi]

/-- C7 witness: an invalid intent string fails validation, and the failure
turn leaves a populated session store untouched while replying with the
clarification request. -/
theorem policy_extraction_failure_scoped_witness :
    parseIntent "bogus" = none ∧
    extractIntentAndSlots (FnArgs.extractArgs "bogus"
      ⟨none, none, none, none, none, none⟩) =
      FnResult.failure "Failed to extract intent and slots" ∧
    (handleExtractTurn (fun _ => [])
      [⟨"s1", ⟨none, none, none, none, none, none⟩, "en"⟩] "s1" "en"
      (FnResult.failure "Failed to extract intent and slots")).action =
      TurnAction.clarification ∧
    (handleExtractTurn (fun _ => [])
      [⟨"s1", ⟨none, none, none, none, none, none⟩, "en"⟩] "s1" "en"
      (FnResult.failure "Failed to extract intent and slots")).response =
      clarifyMsg ∧
    (handleExtractTurn (fun _ => [])
      [⟨"s1", ⟨none, none, none, none, none, none⟩, "en"⟩] "s1" "en"
      (FnResult.failure "Failed to extract intent and slots")).store =
      [⟨"s1", ⟨none, none, none, none, none, none⟩, "en"⟩] := by
  have h := policy_extraction_failure_scoped (fun _ => [])
    [⟨"s1", ⟨none, none, none, none, none, none⟩, "en"⟩] "s1" "en"
    "Failed to extract intent and slots" _ rfl
  refine ⟨by decide, ?_, h.1, h.2.1, h.2.2.1⟩
  exact h.2.2.2.2 "bogus" ⟨none, none, none, none, none, none⟩ (Or.inl (by decide))

/-- C8: whenever extraction succeeds, the merged slots are persisted to the
session store unconditionally — the persist is the very first event of the
turn's effect trace, so every streamed chunk comes after it — and the store
afterwards holds exactly the merged slots for the session. -/
theorem persist_precedes_streaming
    (search : Slots → List Property) (store : SessionStore)
    (sessionId lang : String) (i : Intent) (slots : Slots)
    (extractResult : FnResult)
    (hres : extractResult = FnResult.extractOk i slots) :
    (∃ rest, (handleExtractTurn search store sessionId lang extractResult).events =
      Event.persist (mergedOf store sessionId slots) :: rest) ∧
    ((getUserSession
        (handleExtractTurn search store sessionId lang extractResult).store
        sessionId).map (fun sess => sess.slots) =
      some (mergedOf store sessionId slots)) := by
  subst hres
  constructor
  · cases hmiss : getMissingSlots (mergedOf store sessionId slots) with
    | cons f rest' =>
      simp only [handleExtractTurn, hmiss]
      exact ⟨_, rfl⟩
    | nil =>
      simp only [handleExtractTurn, hmiss, executeFunction_fetch_eq, fetchProperties,
        parseSlots_toRawSlots]
      split <;> exact ⟨_, rfl⟩
  · cases hmiss : getMissingSlots (mergedOf store sessionId slots) with
    | cons f rest' =>
      simp only [handleExtractTurn, hmiss, executeFunction_save_eq]
      exact saveMemory_persists store sessionId _ lang
    | nil =>
      simp only [handleExtractTurn, hmiss, executeFunction_fetch_eq, fetchProperties,
        parseSlots_toRawSlots, executeFunction_save_eq]
      split <;> exact saveMemory_persists store sessionId _ lang

/-- C8 witness: with incomplete extracted slots (action still missing) the
merged slots are persisted anyway, and the persist event heads the trace. -/
theorem persist_precedes_streaming_witness :
    getMissingSlots (mergedOf [] "s2"
      ⟨none, some Category.residential, some PropType.flat, some "Pune",
        some 5000000, none⟩) ≠ [] ∧
    (handleExtractTurn (fun _ => []) [] "s2" "en"
      (FnResult.extractOk Intent.property_query
        ⟨none, some Category.residential, some PropType.flat, some "Pune",
          some 5000000, none⟩)).events.head? =
      some (Event.persist (mergedOf [] "s2"
        ⟨none, some Category.residential, some PropType.flat, some "Pune",
          some 5000000, none⟩)) ∧
    ((getUserSession
        (handleExtractTurn (fun _ => []) [] "s2" "en"
          (FnResult.extractOk Intent.property_query
            ⟨none, some Category.residential, some PropType.flat, some "Pune",
              some 5000000, none⟩)).store "s2").map (fun sess => sess.slots) =
      some (mergedOf [] "s2"
        ⟨none, some Category.residential, some PropType.flat, some "Pune",
          some 5000000, none⟩)) := by
  have h := persist_precedes_streaming (fun _ => []) [] "s2" "en"
    Intent.property_query
    ⟨none, some Category.residential, some PropType.flat, some "Pune",
      some 5000000, none⟩ _ rfl
  obtain ⟨⟨rest, hr⟩, hstore⟩ := h
  refine ⟨by decide, ?_, hstore⟩
  rw [hr]
  rfl

/-! ## In-memory storage (`src/server/storage.ts`)

`MemStorage` keeps `Map<number, T>` maps for users, conversations and
messages; a map is embedded as an association list keyed by the id
(`Map.delete` removes the entries stored under the key). -/

/-- A user record (`users` map). -/
structure User where
  id : Nat
  username : String
deriving DecidableEq, Repr

/-- A conversation record (`conversations` map). -/
structure Conversation where
  id : Nat
  title : String
  sessionId : String
  createdAt : Nat
deriving DecidableEq, Repr

/-- A message record (`messages` map). -/
structure Message where
  id : Nat
  conversationId : Nat
  role : String
  content : String
  createdAt : Nat
deriving DecidableEq, Repr

/-- The `MemStorage` state: the three maps and the id counters. -/
structure MemStorage where
  users : List (Nat × User)
  conversations : List (Nat × Conversation)
  messages : List (Nat × Message)
  currentUserId : Nat
  currentConversationId : Nat
  currentMessageId : Nat
deriving DecidableEq, Repr

/-- `Map.get(k)`: the value stored under the key, if any. -/
def mapGet {α : Type} (m : List (Nat × α)) (k : Nat) : Option α :=
  (m.find? (fun kv => kv.1 == k)).map Prod.snd

/-- `MemStorage.deleteConversation` from `src/server/storage.ts`:
`conversations.delete(id)`, then delete every message whose
`conversationId` equals the id. -/
def deleteConversation (st : MemStorage) (id : Nat) : MemStorage :=
  { st with
    conversations := st.conversations.filter (fun kv => !(kv.1 == id))
    messages := st.messages.filter (fun kv => !(kv.2.conversationId == id)) }

/-- Filtering a key out makes its lookup fail. -/
theorem mapGet_filter_self {α : Type} (m : List (Nat × α)) (id : Nat) :
    mapGet (m.filter (fun kv => !(kv.1 == id))) id = none := by
  induction m with
  | nil => rfl
  | cons kv rest ih =>
    simp only [mapGet] at ih ⊢
    rw [List.filter_cons]
    by_cases h : kv.1 = id
    · rw [if_neg (by simp [h])]
      exact ih
    · rw [if_pos (by simp [h]), List.find?_cons_of_neg _ (by simp [h])]
      exact ih

/-- Filtering a key out leaves every other key's lookup unchanged. -/
theorem mapGet_filter_other {α : Type} (m : List (Nat × α)) (id k : Nat)
    (hk : k ≠ id) :
    mapGet (m.filter (fun kv => !(kv.1 == id))) k = mapGet m k := by
  induction m with
  | nil => rfl
  | cons kv rest ih =>
    simp only [mapGet] at ih ⊢
    rw [List.filter_cons]
    by_cases h : kv.1 = id
    · have hb : (kv.1 == k) = false := by
        simp [h]
        exact fun he => hk he.symm
      rw [if_neg (by simp [h])]
      simp only [List.find?_cons, hb]
      exact ih
    · by_cases h2 : kv.1 = k
      · have hb : (kv.1 == k) = true := by simp [h2]
        rw [if_pos (by simp [h])]
        simp only [List.find?_cons, hb]
      · have hb : (kv.1 == k) = false := by simp [h2]
        rw [if_pos (by simp [h])]
        simp only [List.find?_cons, hb]
        exact ih

/-- C9: after `deleteConversation id`, the store no longer contains the
conversation `id` nor any message of that conversation, while every other
conversation's lookup, every message of a different conversation, and the
whole `users` map are unchanged (and no message appears that was not there
before). -/
theorem deleteConversation_cascades (st : MemStorage) (id : Nat) :
    mapGet (deleteConversation st id).conversations id = none ∧
    (∀ kv ∈ (deleteConversation st id).messages, kv.2.conversationId ≠ id) ∧
    (∀ k, k ≠ id → mapGet (deleteConversation st id).conversations k =
      mapGet st.conversations k) ∧
    (∀ kv ∈ st.messages, kv.2.conversationId ≠ id →
      kv ∈ (deleteConversation st id).messages) ∧
    (∀ kv ∈ (deleteConversation st id).messages, kv ∈ st.messages) ∧
    (deleteConversation st id).users = st.users := by
  refine ⟨mapGet_filter_self st.conversations id, ?_, ?_, ?_, ?_, rfl⟩
  · intro kv hkv
    have := (List.mem_filter.mp hkv).2
    simpa using this
  · intro k hk
    exact mapGet_filter_other st.conversations id k hk
  · intro kv hkv hne
    exact List.mem_filter.mpr ⟨hkv, by simpa using hne⟩
  · intro kv hkv
    exact (List.mem_filter.mp hkv).1

/-- C9 witness: a concrete store with two conversations and one message in
each — deleting conversation 1 removes it and its message, keeps
conversation 2 with its message, and keeps the users. -/
theorem deleteConversation_cascades_witness :
    mapGet (deleteConversation
      ⟨[(1, ⟨1, "alice"⟩)],
       [(1, ⟨1, "flat hunt", "s1", 0⟩), (2, ⟨2, "villa hunt", "s2", 0⟩)],
       [(1, ⟨1, 1, "user", "hi", 0⟩), (2, ⟨2, 2, "user", "yo", 0⟩)],
       2, 3, 3⟩ 1).conversations 1 = none ∧
    mapGet (deleteConversation
      ⟨[(1, ⟨1, "alice"⟩)],
       [(1, ⟨1, "flat hunt", "s1", 0⟩), (2, ⟨2, "villa hunt", "s2", 0⟩)],
       [(1, ⟨1, 1, "user", "hi", 0⟩), (2, ⟨2, 2, "user", "yo", 0⟩)],
       2, 3, 3⟩ 1).conversations 2 =
      mapGet [(1, (⟨1, "flat hunt", "s1", 0⟩ : Conversation)),
        (2, ⟨2, "villa hunt", "s2", 0⟩)] 2 ∧
    (2, (⟨2, 2, "user", "yo", 0⟩ : Message)) ∈ (deleteConversation
      ⟨[(1, ⟨1, "alice"⟩)],
       [(1, ⟨1, "flat hunt", "s1", 0⟩), (2, ⟨2, "villa hunt", "s2", 0⟩)],
       [(1, ⟨1, 1, "user", "hi", 0⟩), (2, ⟨2, 2, "user", "yo", 0⟩)],
       2, 3, 3⟩ 1).messages ∧
    (deleteConversation
      ⟨[(1, ⟨1, "alice"⟩)],
       [(1, ⟨1, "flat hunt", "s1", 0⟩), (2, ⟨2, "villa hunt", "s2", 0⟩)],
       [(1, ⟨1, 1, "user", "hi", 0⟩), (2, ⟨2, 2, "user", "yo", 0⟩)],
       2, 3, 3⟩ 1).users = [(1, ⟨1, "alice"⟩)] := by
  have h := deleteConversation_cascades
    ⟨[(1, ⟨1, "alice"⟩)],
     [(1, ⟨1, "flat hunt", "s1", 0⟩), (2, ⟨2, "villa hunt", "s2", 0⟩)],
     [(1, ⟨1, 1, "user", "hi", 0⟩), (2, ⟨2, 2, "user", "yo", 0⟩)],
     2, 3, 3⟩ 1
  refine ⟨h.1, h.2.2.1 2 (by decide), ?_, h.2.2.2.2.2⟩
  exact h.2.2.2.1 (2, ⟨2, 2, "user", "yo", 0⟩) (by decide) (by decide)

end MyHomi
